import Mathlib

/-!
# The faucet widget of `src/components/faucet/index.js`

A shallow embedding of the React component: its props and the slice of the
global store it reads, its four `useState` cells, the two effects, the event
handlers, the `mint` routine and the part of the rendered tree that decides
which controls exist.  JavaScript values are kept untyped (`JSVal`), so that
truthiness (`&&`, `||`, `!`) and strict equality (`===`) behave as in the
source; numbers are binary64 values.  The one place where the behaviour of
the source depends on how it is compiled, the self-reference on line 74, is
kept as a parameter (`Build`).
-/

namespace Faucet

/-! ## JavaScript values and objects -/

/-- JavaScript values flowing through the component.  `ref` stands for any
non-primitive value (object, function, BigNumber), compared by identity. -/
inductive JSVal where
  | undefined
  | null
  | bool (b : Bool)
  | num (n : Int)
  | str (s : String)
  | ref (id : Nat)
  deriving DecidableEq, Repr

/-- ToBoolean: what `&&`, `||`, `!` and `?:` test. -/
def JSVal.truthy : JSVal → Bool
  | .undefined => false
  | .null => false
  | .bool b => b
  | .num n => decide (n ≠ 0)
  | .str s => decide (s ≠ "")
  | .ref _ => true

/-- The expression `a || b`. -/
def jsOr (a b : JSVal) : JSVal := if a.truthy then a else b

/-- A plain object, kept as the sequence of its property definitions in the
order they were made; the last definition of a key is its value. -/
structure JSObj where
  props : List (String × JSVal)
  deriving DecidableEq, Repr

/-- Property read of a definition sequence: definitions are replayed in
order, a key never defined reads `undefined`. -/
def getProp (k : String) (l : List (String × JSVal)) : JSVal :=
  l.foldl (fun acc kv => if kv.1 = k then kv.2 else acc) .undefined

/-- The read `o[k]` / `o.k`. -/
def JSObj.get (o : JSObj) (k : String) : JSVal := getProp k o.props

/-- One more property definition `k: v` in an object literal. -/
def JSObj.set (o : JSObj) (k : String) (v : JSVal) : JSObj := ⟨o.props ++ [(k, v)]⟩

/-- The empty object literal. -/
def JSObj.empty : JSObj := ⟨[]⟩

/-- The read `o?.[k]` on a possibly null or undefined object. -/
def optGet (o : Option JSObj) (k : String) : JSVal :=
  match o with
  | some x => x.get k
  | none => .undefined

/-- The spread `{ ...base, ...src }`: the own properties of `src` are
defined after those of `base`; spreading `null`/`undefined` defines nothing. -/
def spread (base : JSObj) (src : Option JSObj) : JSObj :=
  match src with
  | some x => ⟨base.props ++ x.props⟩
  | none => base

/-! ## Numbers as produced by `Number(...)` -/

/-- A JavaScript number, an IEEE 754 binary64 value: `fin neg m e` is
`(-1)^neg * m * 2^e`.  Values produced by `roundToDouble` have `m < 2^53` and
`-1074 ≤ e ≤ 971`, with `2^52 ≤ m` unless `e = -1074` (zero and the
subnormal numbers). -/
inductive JSNumber where
  | nan
  | inf (neg : Bool)
  | fin (neg : Bool) (mant : Nat) (exp2 : Int)
  deriving DecidableEq, Repr

/-- ToBoolean on numbers: `NaN`, `+0` and `-0` are falsy. -/
def JSNumber.truthy : JSNumber → Bool
  | .nan => false
  | .inf _ => true
  | .fin _ m _ => decide (m ≠ 0)

/-- The quotient `a / b` rounded to the nearest natural number, a tie going
to the even neighbour. -/
def roundHalfEven (a b : Nat) : Nat :=
  if 2 * (a % b) < b then a / b
  else if b < 2 * (a % b) then a / b + 1
  else if (a / b) % 2 = 0 then a / b else a / b + 1

/-- Floor of the binary logarithm of a natural number by repeated halving
(0 for 0 and 1); the first argument bounds the number of halvings. -/
def log2Fuel : Nat → Nat → Nat
  | 0, _ => 0
  | fuel + 1, n => if n < 2 then 0 else log2Fuel fuel (n / 2) + 1

/-- Floor of the binary logarithm of the positive rational `num / den`. -/
def floorLog2 (num den : Nat) : Int :=
  let e0 : Int := (log2Fuel num num : Int) - (log2Fuel den den : Int)
  let reached : Bool :=
    if 0 ≤ e0 then decide (2 ^ e0.toNat * den ≤ num) else decide (den ≤ num * 2 ^ (-e0).toNat)
  if reached then e0 else e0 - 1

/-- The Number value for the non-negative rational `num / den` (`den`
positive): the nearest binary64 value, ties to even, `Infinity` from
`2^1024 - 2^970` on, with gradual underflow to the subnormal numbers and to
zero. -/
def roundToDouble (neg : Bool) (num den : Nat) : JSNumber :=
  if num = 0 then .fin neg 0 (-1074)
  else
    let e : Int := max (floorLog2 num den - 52) (-1074)
    let m : Nat :=
      if 0 ≤ e then roundHalfEven num (den * 2 ^ e.toNat)
      else roundHalfEven (num * 2 ^ (-e).toNat) den
    let m1 : Nat := if m = 2 ^ 53 then 2 ^ 52 else m
    let e1 : Int := if m = 2 ^ 53 then e + 1 else e
    if 971 < e1 then .inf neg else .fin neg m1 e1

/-- The Number value for the decimal `m * 10 ^ k`. -/
def decimalToDouble (neg : Bool) (m : Nat) (k : Int) : JSNumber :=
  if 0 ≤ k then roundToDouble neg (m * 10 ^ k.toNat) 1
  else roundToDouble neg m (10 ^ (-k).toNat)

/-- A natural number as a JavaScript number: the value of the numeric
literal `n`. -/
def JSNumber.ofNat (n : Nat) : JSNumber := roundToDouble false n 1

/-- The integer a number is equal to, when it is an integer. -/
def JSNumber.toInt? : JSNumber → Option Int
  | .nan => none
  | .inf _ => none
  | .fin neg m e =>
    if 0 ≤ e then some ((if neg then -1 else 1) * ((m * 2 ^ e.toNat : Nat) : Int))
    else if m % 2 ^ (-e).toNat = 0 then
      some ((if neg then -1 else 1) * ((m / 2 ^ (-e).toNat : Nat) : Int))
    else none

/-- StrWhiteSpaceChar of the StringToNumber grammar. -/
def isStrWhiteSpaceChar (c : Char) : Bool :=
  let n := c.toNat
  n == 9 || n == 10 || n == 11 || n == 12 || n == 13 || n == 32 || n == 160 ||
  n == 5760 || (decide (8192 ≤ n) && decide (n ≤ 8202)) || n == 8232 || n == 8233 ||
  n == 8239 || n == 8287 || n == 12288 || n == 65279

/-- Value of a digit character in the given radix (at most 16). -/
def radixDigit (radix : Nat) (c : Char) : Option Nat :=
  let n := c.toNat
  let v : Option Nat :=
    if 48 ≤ n ∧ n ≤ 57 then some (n - 48)
    else if 97 ≤ n ∧ n ≤ 102 then some (n - 87)
    else if 65 ≤ n ∧ n ≤ 70 then some (n - 55)
    else none
  match v with
  | some d => if d < radix then some d else none
  | none => none

/-- Longest prefix of digits in the given radix, with the remaining input. -/
def takeDigits (radix : Nat) : List Char → List Nat × List Char
  | [] => ([], [])
  | c :: cs =>
    match radixDigit radix c with
    | some d => ((takeDigits radix cs).1.cons d, (takeDigits radix cs).2)
    | none => ([], c :: cs)

/-- Mathematical value of a digit sequence, most significant digit first. -/
def digitsVal (radix : Nat) (ds : List Nat) : Nat :=
  ds.foldl (fun acc d => radix * acc + d) 0

/-- An optional leading sign: whether it is a minus, and the rest. -/
def takeSign : List Char → Bool × List Char
  | [] => (false, [])
  | c :: cs =>
    if c.toNat = 45 then (true, cs)
    else if c.toNat = 43 then (false, cs)
    else (false, c :: cs)

/-- ExponentPart (optional): `e` or `E`, an optional sign, at least one digit,
and nothing after it. -/
def parseExponent : List Char → Option Int
  | [] => some 0
  | c :: cs =>
    if c.toNat = 101 ∨ c.toNat = 69 then
      let sg := takeSign cs
      let ds := takeDigits 10 sg.2
      if ds.1 = [] ∨ ds.2 ≠ [] then none
      else some (if sg.1 then - (digitsVal 10 ds.1 : Int) else (digitsVal 10 ds.1 : Int))
    else none

/-- StrUnsignedDecimalLiteral without `Infinity`: mantissa and decimal
exponent. -/
def parseUnsignedDecimal (cs : List Char) : Option (Nat × Int) :=
  let ip := takeDigits 10 cs
  match ip.2 with
  | c :: r =>
    if c.toNat = 46 then
      let fp := takeDigits 10 r
      if ip.1 = [] ∧ fp.1 = [] then none
      else (parseExponent fp.2).map
        (fun e => (digitsVal 10 (ip.1 ++ fp.1), e - (fp.1.length : Int)))
    else if ip.1 = [] then none
    else (parseExponent ip.2).map (fun e => (digitsVal 10 ip.1, e))
  | [] => if ip.1 = [] then none else some (digitsVal 10 ip.1, 0)

/-- NonDecimalIntegerLiteral: `0x`, `0o`, `0b` (either case) and at least one
digit of that radix, nothing else. -/
def parseNonDecimal : List Char → Option Nat
  | z :: p :: rest =>
    if z.toNat = 48 then
      let radix : Option Nat :=
        if p.toNat = 120 ∨ p.toNat = 88 then some 16
        else if p.toNat = 111 ∨ p.toNat = 79 then some 8
        else if p.toNat = 98 ∨ p.toNat = 66 then some 2
        else none
      match radix with
      | some r =>
        let ds := takeDigits r rest
        if ds.1 = [] ∨ ds.2 ≠ [] then none else some (digitsVal r ds.1)
      | none => none
    else none
  | _ => none

/-- Removal of leading and trailing white space. -/
def trimWhite (cs : List Char) : List Char :=
  ((cs.dropWhile isStrWhiteSpaceChar).reverse.dropWhile isStrWhiteSpaceChar).reverse

/-- StringToNumber: the numeric value of a string under `Number(...)`.  The
mathematical value of the literal is rounded to binary64 (for literals of
more than 20 significant digits the language leaves the last bit to the
engine; the correctly rounded value is taken, as V8 does). -/
def StringToNumber (s : String) : JSNumber :=
  let cs := trimWhite s.toList
  if cs = [] then roundToDouble false 0 1
  else
    match parseNonDecimal cs with
    | some n => roundToDouble false n 1
    | none =>
      let sg := takeSign cs
      if sg.2 = "Infinity".toList then .inf sg.1
      else
        match parseUnsignedDecimal sg.2 with
        | some me => decimalToDouble sg.1 me.1 me.2
        | none => .nan

/-- The call `Number(v)` for an environment variable, which is a string or
`undefined`; `Number(undefined)` is `NaN`. -/
def Number (v : Option String) : JSNumber :=
  match v with
  | some s => StringToNumber s
  | none => .nan

/-! ## Props, store and component state -/

/-- An entry of `chains_data`. -/
structure Chain where
  id : JSVal
  chain_id : JSVal
  deriving DecidableEq, Repr

/-- An entry of an asset's `contracts`, and the shape of the `contract_data`
prop. -/
structure Contract where
  chain_id : JSVal
  contract_address : JSVal
  decimals : JSVal
  symbol : JSVal
  deriving DecidableEq, Repr

/-- An entry of `assets_data`. -/
structure Asset where
  id : JSVal
  symbol : JSVal
  contracts : Option (List Contract)
  deriving DecidableEq, Repr

/-- The fields destructured from `wallet_data` (line 33). -/
structure Wallet where
  chain_id : JSVal
  address : JSVal
  signer : JSVal
  deriving DecidableEq, Repr

/-- The slice of the redux store selected on line 29. -/
structure Store where
  chains_data : Option (List Chain)
  assets_data : Option (List Asset)
  wallet_data : Wallet
  deriving DecidableEq, Repr

/-- The props passed by the caller (lines 24-28); `none` and `undefined` mean
the prop was not passed. -/
structure Props where
  token_id : JSVal
  faucet_amount : Option JSNumber
  contract_data : Option Contract
  deriving DecidableEq, Repr

/-- The build-time environment read on line 26. -/
structure ProcessEnv where
  NEXT_PUBLIC_FAUCET_AMOUNT : Option String
  deriving DecidableEq, Repr

/-- Default parameter `token_id = 'test'` (line 25). -/
def token_id (p : Props) : JSVal :=
  if p.token_id = .undefined then .str "test" else p.token_id

/-- Default value expression `Number(process.env.NEXT_PUBLIC_FAUCET_AMOUNT) || 1000`
(line 26). -/
def default_faucet_amount (env : ProcessEnv) : JSNumber :=
  if (Number env.NEXT_PUBLIC_FAUCET_AMOUNT).truthy then Number env.NEXT_PUBLIC_FAUCET_AMOUNT
  else JSNumber.ofNat 1000

/-- Default parameter `faucet_amount = ...` (line 26). -/
def faucet_amount (p : Props) (env : ProcessEnv) : JSNumber :=
  match p.faucet_amount with
  | some v => v
  | none => default_faucet_amount env

/-- The four `useState` cells (lines 35-38). -/
structure State where
  collapse : Bool
  data : Option JSObj
  minting : Option Bool
  mintResponse : Option JSObj
  deriving DecidableEq, Repr

/-- Initial values of the four cells. -/
def State.initial : State := ⟨true, none, none, none⟩

/-- A form field declaration (lines 40-53). -/
structure Field where
  label : String
  name : String
  type : String
  placeholder : String
  deriving DecidableEq, Repr

/-- The `fields` array (lines 40-53). -/
def fields : List Field :=
  [ ⟨"Chain", "chain", "select-chain", "Select chain to faucet"⟩,
    ⟨"Recipient Address", "address", "text", "Faucet token to an address"⟩ ]

/-- The lookup `chains_data?.find(c => c?.chain_id === chain_id)`. -/
def findChainByChainId (chains_data : Option (List Chain)) (chain_id : JSVal) : Option Chain :=
  match chains_data with
  | some cs => cs.find? (fun c => decide (c.chain_id = chain_id))
  | none => none

/-- The lookup `chains_data?.find(c => c?.id === id)`. -/
def findChainById (chains_data : Option (List Chain)) (id : JSVal) : Option Chain :=
  match chains_data with
  | some cs => cs.find? (fun c => decide (c.id = id))
  | none => none

/-- The lookup `assets_data?.find(a => a?.id === token_id)`. -/
def findAsset (assets_data : Option (List Asset)) (tid : JSVal) : Option Asset :=
  match assets_data with
  | some xs => xs.find? (fun a => decide (a.id = tid))
  | none => none

/-- The read `c?.id` on a lookup result. -/
def chainIdField (c : Option Chain) : JSVal :=
  match c with
  | some x => x.id
  | none => .undefined

/-- The read `c?.chain_id` on a lookup result. -/
def chainChainId (c : Option Chain) : JSVal :=
  match c with
  | some x => x.chain_id
  | none => .undefined

/-! ## Effects and event handlers -/

/-- The effect of lines 65-67: `setMintResponse(null)`. -/
def dataEffect (st : State) : State := { st with mintResponse := none }

/-- A call `setData(obj)`.  Every call site passes a freshly built object
literal, so the `[data]` dependency of the effect on lines 65-67 changes and
that effect runs after the update. -/
def setData (st : State) (obj : JSObj) : State := dataEffect { st with data := some obj }

/-- The effect of lines 55-63, run when `chain_id` or `address` changes. -/
def initEffect (s : Store) (st : State) : State :=
  if s.wallet_data.chain_id.truthy && s.wallet_data.address.truthy then
    setData st
      (((spread JSObj.empty st.data).set "address"
          (match st.data with
           | some d => d.get "address"
           | none => s.wallet_data.address)).set "chain"
          (jsOr (chainIdField (findChainByChainId s.chains_data s.wallet_data.chain_id))
            (optGet st.data "chain")))
  else st

/-- The header button handler (line 106): `setCollapse(!collapse)`. -/
def toggle (st : State) : State := { st with collapse := !st.collapse }

/-- The Cancel handler (lines 155-162). -/
def cancel (s : Store) (st : State) : State :=
  setData { st with collapse := !st.collapse }
    (((spread JSObj.empty st.data).set "address" s.wallet_data.address).set "chain"
      (chainIdField (findChainByChainId s.chains_data s.wallet_data.chain_id)))

/-- The field handlers `onSelect` (line 136) and `onChange` (line 145):
`setData({ ...data, [f.name]: v })`. -/
def editField (f : Field) (v : JSVal) (st : State) : State :=
  setData st ((spread JSObj.empty st.data).set f.name v)

/-! ## Render -/

/-- The predicate of line 99:
`fields.length === fields.filter(f => data?.[f.name]).length`. -/
def hasAllFields (data : Option JSObj) : Bool :=
  decide (fields.length = (fields.filter (fun f => (optGet data f.name).truthy)).length)

/-- Which parts of the tree returned on lines 103-248 exist. -/
structure View where
  root : Bool
  form : Bool
  cancelButton : Bool
  switchControl : Bool
  mintButton : Bool
  banner : Bool
  deriving DecidableEq, Repr

/-- The render of lines 96-248, reduced to the presence of each control. -/
def render (p : Props) (s : Store) (st : State) : View :=
  let chain_data := findChainById s.chains_data (optGet st.data "chain")
  let asset_data := findAsset s.assets_data (token_id p)
  let root := asset_data.isSome
  let form := root && !st.collapse
  let actions := form && (s.wallet_data.signer.truthy && hasAllFields st.data)
  let differs := decide (chainChainId chain_data ≠ s.wallet_data.chain_id)
  { root := root
    form := form
    cancelButton := actions
    switchControl := actions && differs
    mintButton := actions && !differs
    banner := root && st.mintResponse.isSome }

/-! ## The `mint` routine (lines 69-94) -/

/-- A thrown value, as far as the `catch` branch inspects it:
`error?.data?.message` and `error?.message`. -/
structure JSError where
  name : String
  data_message : JSVal
  message : JSVal
  deriving DecidableEq, Repr

/-- State of a `let`/`const`/`var` binding while its scope runs: created when
the scope is entered, initialised or not at the time of a read. -/
inductive Binding (α : Type) where
  | uninitialized
  | initialized (v : α)

/-- The error raised by reading a lexical binding before its initialisation
(message text as worded by V8). -/
def ReferenceError (name : String) : JSError :=
  { name := "ReferenceError"
    data_message := .undefined
    message := .str ("Cannot access \x27" ++ name ++ "\x27 before initialization") }

/-- Reading an identifier that resolves to a binding of the current scope. -/
def Binding.read {α : Type} (name : String) : Binding α → Except JSError α
  | .uninitialized => .error (ReferenceError name)
  | .initialized v => .ok v

/-- How the bundle that runs in the browser treats the block-scoped
declarations of the source file, which has to be compiled (JSX) before it can
run: `lexical` keeps `const` as written (ES2015 block scoping), `lowered`
rewrites it to a function-scoped `var` (ES5 targets). -/
inductive Build where
  | lexical
  | lowered
  deriving DecidableEq, Repr

/-- The binding named `contract_data` that the `try` block of `mint`
declares on line 74, as it stands while its own initializer runs: a `const`
exists from the entry of its block and may not be read before its declaration
has been evaluated; a hoisted `var` holds `undefined` until it is assigned. -/
def own_contract_data : Build → Binding (Option Contract)
  | .lexical => .uninitialized
  | .lowered => .initialized none

/-- The lookup `asset_data?.contracts?.find(c => c?.chain_id === chain_id)`. -/
def findContract (asset_data : Option Asset) (chain_id : JSVal) : Option Contract :=
  match asset_data with
  | some a =>
    match a.contracts with
    | some cs => cs.find? (fun c => decide (c.chain_id = chain_id))
    | none => none
  | none => none

/-- The initializer of line 74,
`const contract_data = contract_data || asset_data?.contracts?.find(...)`.
The declaration sits in the `try` block, so inside that block the name
`contract_data` denotes the block's own binding, not the prop of line 27: the
left operand of `||` is a read of `own_contract_data`.  (Line 73 redeclares
`asset_data` in the same way, but its initializer reads `assets_data`,
another name.) -/
def contract_data_initializer (b : Build) (asset_data : Option Asset) (chain_id : JSVal) :
    Except JSError (Option Contract) :=
  match Binding.read "contract_data" (own_contract_data b) with
  | .error e => .error e
  | .ok own =>
    match own with
    | some c => .ok (some c)
    | none => .ok (findContract asset_data chain_id)

/-- A call `contract.mint(account, amount)` on the contract at
`contract_address`. -/
structure MintCall where
  contract_address : JSVal
  account : JSVal
  amount : Int
  deriving DecidableEq, Repr

/-- The collaborators `mint` calls into: the ethers library and the signer's
provider.  `parseUnits x d` stands for `utils.parseUnits(x.toString(), d)`. -/
structure External where
  newContract : JSVal → Except JSError Unit
  parseUnits : JSNumber → JSVal → Except JSError Int
  mint : MintCall → Except JSError JSObj
  waitForTransaction : JSVal → Except JSError (Option JSObj)

/-- The `contract_address` destructured from `{ ...contract_data }`
(lines 75-78). -/
def contract_address (contract_data : Option Contract) : JSVal :=
  match contract_data with
  | some c => c.contract_address
  | none => .undefined

/-- The `decimals` destructured from `{ ...contract_data }` (lines 75-78). -/
def decimals (contract_data : Option Contract) : JSVal :=
  match contract_data with
  | some c => c.decimals
  | none => .undefined

/-- Lines 75-86: destructuring of the resolved metadata, the contract call,
the single wait and the response object.  Returns the contract calls issued
together with the object passed to `setMintResponse` or the thrown error. -/
def mintSubmit (x : External) (amount : JSNumber) (data : Option JSObj)
    (contract_data : Option Contract) : List MintCall × Except JSError JSObj :=
  match x.newContract (contract_address contract_data) with
  | .error e => ([], .error e)
  | .ok _ =>
    match x.parseUnits amount (jsOr (decimals contract_data) (.num 18)) with
    | .error e => ([], .error e)
    | .ok units =>
      match x.mint ⟨contract_address contract_data, optGet data "address", units⟩ with
      | .error e => ([⟨contract_address contract_data, optGet data "address", units⟩], .error e)
      | .ok response =>
        match x.waitForTransaction (response.get "hash") with
        | .error e =>
          ([⟨contract_address contract_data, optGet data "address", units⟩], .error e)
        | .ok receipt =>
          ([⟨contract_address contract_data, optGet data "address", units⟩],
            .ok (spread
              ⟨[("status", .str (if !(optGet receipt "status").truthy then "failed"
                  else "success")),
                ("message", .str (if !(optGet receipt "status").truthy then "Failed to faucet"
                  else "Faucet Successful"))]⟩
              (some response)))

/-- The `try` block of lines 73-86. -/
def mintTry (b : Build) (x : External) (p : Props) (env : ProcessEnv) (s : Store)
    (st : State) : List MintCall × Except JSError JSObj :=
  let asset_data := findAsset s.assets_data (token_id p)
  match contract_data_initializer b asset_data s.wallet_data.chain_id with
  | .error e => ([], .error e)
  | .ok contract_data => mintSubmit x (faucet_amount p env) st.data contract_data

/-- The object built in the `catch` branch (lines 88-91). -/
def catchResponse (error : JSError) : JSObj :=
  ⟨[("status", .str "failed"), ("message", jsOr error.data_message error.message)]⟩

/-- The routine `mint` (lines 69-94): the state once it has run to its end,
and the contract calls it issued.  Lines 70-71 set `minting` and clear
`mintResponse`; lines 82 or 88 then record the response and line 93 clears
`minting`. -/
def mint (b : Build) (x : External) (p : Props) (env : ProcessEnv) (s : Store) (st : State) :
    State × List MintCall :=
  let started : State := { st with minting := some true, mintResponse := none }
  let run := mintTry b x p env s st
  let response :=
    match run.2 with
    | .ok obj => obj
    | .error e => catchResponse e
  ({ started with mintResponse := some response, minting := some false }, run.1)

/-! ## Events -/

/-- The first render: the cells hold their initial values and both effects
run once, in declaration order. -/
def mount (s : Store) : State := dataEffect (initEffect s State.initial)

/-- What can happen to a mounted component. -/
inductive Event where
  | toggle
  | cancel
  | edit (f : Field) (v : JSVal)
  | storeChanged (s : Store)
  | mint (x : External)

/-- Whether an event is a mint attempt. -/
def Event.isMint : Event → Bool
  | .mint _ => true
  | _ => false

/-- One event applied to the component and the store it reads.  A new store
re-runs the effect of lines 55-63 only when `chain_id` or `address` differ
from the previous render (its dependency array). -/
def step (b : Build) (p : Props) (env : ProcessEnv) (c : Store × State) :
    Event → Store × State
  | .toggle => (c.1, toggle c.2)
  | .cancel => (c.1, cancel c.1 c.2)
  | .edit f v => (c.1, editField f v c.2)
  | .storeChanged s =>
    if s.wallet_data.chain_id = c.1.wallet_data.chain_id ∧
        s.wallet_data.address = c.1.wallet_data.address then (s, c.2)
    else (s, initEffect s c.2)
  | .mint x => (c.1, (mint b x p env c.1 c.2).1)

/-- A sequence of events applied in order. -/
def run (b : Build) (p : Props) (env : ProcessEnv) (c : Store × State) (es : List Event) :
    Store × State :=
  es.foldl (step b p env) c

/-! ## Decimal digit strings -/

/-- A decimal digit character. -/
def isDec (c : Char) : Prop := 48 ≤ c.toNat ∧ c.toNat ≤ 57

/-- Value of a list of decimal digit characters. -/
def charsVal (cs : List Char) : Nat := digitsVal 10 (cs.map (fun c => c.toNat - 48))

/-! ## Example inputs -/

/-- A two-chain catalog used in the examples. -/
def demoChains : Option (List Chain) :=
  some [⟨.str "ethereum", .num 1⟩, ⟨.str "polygon", .num 137⟩]

/-- A catalog holding the default token `test` on chain 1 with 6 decimals. -/
def demoAssets : Option (List Asset) :=
  some [⟨.str "test", .str "TEST",
    some [⟨.num 1, .str "0xCATALOG", .num 6, .str "TEST"⟩]⟩]

/-- A catalog holding the default token `test` on chain 1 with 0 decimals. -/
def zeroDecimalsAssets : Option (List Asset) :=
  some [⟨.str "test", .str "TEST",
    some [⟨.num 1, .str "0xCATALOG", .num 0, .str "TEST"⟩]⟩]

/-- A connected wallet on chain 1. -/
def demoWallet : Wallet := ⟨.num 1, .str "0xWALLET", .ref 0⟩

/-- Store with the demo catalogs and wallet. -/
def demoStore : Store := ⟨demoChains, demoAssets, demoWallet⟩

/-- The demo store after the wallet moved to chain 137. -/
def movedStore : Store := ⟨demoChains, demoAssets, ⟨.num 137, .str "0xWALLET", .ref 0⟩⟩

/-- Props of a caller that passes nothing. -/
def noProps : Props := ⟨.undefined, none, none⟩

/-- Form data a user typed: chain `polygon`, recipient `0xUSER`. -/
def userData : JSObj := ⟨[("chain", .str "polygon"), ("address", .str "0xUSER")]⟩

/-- The error ethers throws for unusable arguments. -/
def invalidArgument : JSError := ⟨"Error", .undefined, .str "invalid argument"⟩

/-- The unit conversion of ethers on the inputs used here: a non-negative
integer amount and a non-negative integer number of decimals give the amount
times ten to the decimals. -/
def scaleUnits (amount : JSNumber) (d : JSVal) : Except JSError Int :=
  match amount.toInt?, d with
  | some n, .num k => if 0 ≤ n ∧ 0 ≤ k then .ok (n * 10 ^ k.toNat) else .error invalidArgument
  | _, _ => .error invalidArgument

/-- A chain on which the mint transaction is accepted: the contract call
returns a response with hash `0xHASH` and the wait returns a receipt with
status 1. -/
def acceptingChain : External :=
  { newContract := fun _ => .ok ()
    parseUnits := scaleUnits
    mint := fun _ => .ok ⟨[("hash", .str "0xHASH")]⟩
    waitForTransaction := fun _ => .ok (some ⟨[("status", .num 1)]⟩) }

/-- The error of a reverted contract call, carrying a structured message. -/
def revertError : JSError := ⟨"Error", .str "execution reverted", .str "call exception"⟩

/-- A chain on which the contract call throws `revertError`. -/
def revertingChain : External :=
  { newContract := fun _ => .ok ()
    parseUnits := scaleUnits
    mint := fun _ => .error revertError
    waitForTransaction := fun _ => .ok none }

/-- A form ready to mint to `0xUSER` on the wallet's chain. -/
def readyState : State :=
  ⟨false, some ⟨[("chain", .str "ethereum"), ("address", .str "0xUSER")]⟩, none, none⟩

/-! ## Basic facts about objects -/

theorem getProp_append_single_same (k : String) (v : JSVal) (l : List (String × JSVal)) :
    getProp k (l ++ [(k, v)]) = v := by
  simp [getProp, List.foldl_append]

theorem getProp_append_single_other (k k0 : String) (v : JSVal) (l : List (String × JSVal))
    (h : k0 ≠ k) : getProp k (l ++ [(k0, v)]) = getProp k l := by
  simp [getProp, List.foldl_append, h]

theorem get_set_same (o : JSObj) (k : String) (v : JSVal) : (o.set k v).get k = v := by
  simp [JSObj.get, JSObj.set, getProp_append_single_same]

theorem get_set_other (o : JSObj) (k k0 : String) (v : JSVal) (h : k0 ≠ k) :
    (o.set k0 v).get k = o.get k := by
  simp [JSObj.get, JSObj.set, getProp_append_single_other _ _ _ _ h]

theorem truthy_str_iff (v : JSVal)
    (hv : v = .undefined ∨ v = .null ∨ ∃ t, v = .str t) :
    v.truthy = true ↔ ∃ t, v = .str t ∧ t ≠ "" := by
  rcases hv with h | h | ⟨t, h⟩ <;> subst h <;> simp [JSVal.truthy]

theorem hasAllFields_eq (data : Option JSObj) :
    hasAllFields data = ((optGet data "chain").truthy && (optGet data "address").truthy) := by
  unfold hasAllFields fields
  cases h1 : (optGet data "chain").truthy <;> cases h2 : (optGet data "address").truthy <;>
    simp [List.filter, h1, h2]

/-! ## Form state: initialisation, toggle, Cancel, edits -/

theorem mintResponse_none_of_not_mint (b : Build) (p : Props) (env : ProcessEnv)
    (c : Store × State)
    (e : Event) (he : e.isMint = false) (hc : c.2.mintResponse = none) :
    (step b p env c e).2.mintResponse = none := by
  cases e with
  | toggle => simpa [step, toggle] using hc
  | cancel => simp [step, cancel, setData, dataEffect]
  | edit f v => simp [step, editField, setData, dataEffect]
  | storeChanged s =>
    simp only [step]
    split
    · exact hc
    · simp only [initEffect]
      split
      · simp [setData, dataEffect]
      · exact hc
  | mint x => simp [Event.isMint] at he

theorem mintResponse_none_of_no_mint (b : Build) (p : Props) (env : ProcessEnv)
    (es : List Event) :
    ∀ c : Store × State, (∀ e ∈ es, e.isMint = false) → c.2.mintResponse = none →
      (run b p env c es).2.mintResponse = none := by
  induction es with
  | nil => intro c _ hc; simpa [run] using hc
  | cons e es ih =>
    intro c hes hc
    have h1 := mintResponse_none_of_not_mint b p env c e (hes e (List.mem_cons_self _ _)) hc
    have h2 := ih (step b p env c e) (fun e0 h0 => hes e0 (List.mem_cons_of_mem _ h0)) h1
    simpa [run] using h2

/-- C6 (as stated, refuted): the user chose chain `polygon`, the wallet is on
chain 1 (`ethereum` in the catalog); the initialisation effect replaces the
user's chain by `ethereum`. -/
theorem initEffect_overwrites_user_chain :
    optGet (State.mk false (some userData) none none).data "chain" = .str "polygon" ∧
    optGet (initEffect demoStore (State.mk false (some userData) none none)).data "chain"
      = .str "ethereum" := by
  decide

/-- C6 (amended): when the wallet's chain id and address are both truthy, the
effect keeps the address of an existing Form Data object (it takes the
wallet's address only when Form Data is still null), and it sets the chain to
the id of the catalog chain of the wallet's chain id whenever that id is
truthy, keeping the previous chain only otherwise.  When either wallet value
is falsy the effect changes nothing. -/
theorem initEffect_address_kept_chain_follows_wallet (s : Store) (st : State) :
    ((s.wallet_data.chain_id.truthy && s.wallet_data.address.truthy) = true →
      (∀ d, st.data = some d →
        optGet (initEffect s st).data "address" = d.get "address") ∧
      (st.data = none →
        optGet (initEffect s st).data "address" = s.wallet_data.address) ∧
      ((chainIdField (findChainByChainId s.chains_data s.wallet_data.chain_id)).truthy = true →
        optGet (initEffect s st).data "chain"
          = chainIdField (findChainByChainId s.chains_data s.wallet_data.chain_id)) ∧
      ((chainIdField (findChainByChainId s.chains_data s.wallet_data.chain_id)).truthy = false →
        optGet (initEffect s st).data "chain" = optGet st.data "chain")) ∧
    ((s.wallet_data.chain_id.truthy && s.wallet_data.address.truthy) = false →
      initEffect s st = st) := by
  constructor
  · intro hg
    have hne : ("chain" : String) ≠ "address" := by decide
    refine ⟨?_, ?_, ?_, ?_⟩
    · intro d hd
      simp [initEffect, hg, setData, dataEffect, optGet, hd, get_set_other _ _ _ _ hne,
        get_set_same]
    · intro hd
      simp [initEffect, hg, setData, dataEffect, optGet, hd, get_set_other _ _ _ _ hne,
        get_set_same]
    · intro ht
      simp [initEffect, hg, setData, dataEffect, optGet, get_set_same, jsOr, ht]
    · intro ht
      simp only [initEffect, hg, setData, dataEffect, jsOr, ht, if_true]
      exact get_set_same _ _ _
  · intro hg
    simp [initEffect, hg]

/-- C7 (as stated, refuted): a collapsed form holds the user's edits
(`polygon`, `0xUSER`) while the wallet is on chain 1 with address `0xWALLET`;
the header toggle re-expands the form and the fields still hold the user's
edits, not the wallet's values. -/
theorem toggle_reexpand_keeps_user_edits :
    (toggle (State.mk true (some userData) none none)).collapse = false ∧
    optGet (toggle (State.mk true (some userData) none none)).data "address" = .str "0xUSER" ∧
    optGet (toggle (State.mk true (some userData) none none)).data "chain" = .str "polygon" ∧
    demoStore.wallet_data.address = .str "0xWALLET" ∧
    chainIdField (findChainByChainId demoStore.chains_data demoStore.wallet_data.chain_id)
      = .str "ethereum" := by
  decide

/-- C7 (amended): the header toggle only flips the collapsed flag, in both
directions, and leaves Form Data unchanged; it is the Cancel button that
collapses the form and sets the address to the wallet's current address and
the chain to the id of the catalog chain of the wallet's current chain id,
overwriting the user's edits. -/
theorem toggle_keeps_data_cancel_resets (s : Store) (st : State) :
    (toggle st).data = st.data ∧ (toggle st).collapse = (!st.collapse) ∧
    (toggle (toggle st)) = st ∧
    (cancel s st).collapse = (!st.collapse) ∧
    optGet (cancel s st).data "address" = s.wallet_data.address ∧
    optGet (cancel s st).data "chain"
      = chainIdField (findChainByChainId s.chains_data s.wallet_data.chain_id) := by
  have hne : ("chain" : String) ≠ "address" := by decide
  refine ⟨rfl, rfl, ?_, rfl, ?_, ?_⟩
  · cases st; simp [toggle]
  · simp [cancel, setData, dataEffect, optGet, get_set_other _ _ _ _ hne, get_set_same]
  · simp [cancel, setData, dataEffect, optGet, get_set_same]

/-- C8: an edit of a form field (chain selection or address input) leaves no
Mint Response, whatever the state before it; the banner is then not rendered,
and this stays so through every later sequence of events that contains no
mint attempt. -/
theorem edit_clears_mintResponse (b : Build) (p : Props) (env : ProcessEnv) (s : Store)
    (st : State) (f : Field) (v : JSVal) (es : List Event) (hes : ∀ e ∈ es, e.isMint = false) :
    (editField f v st).mintResponse = none ∧
    (render p s (editField f v st)).banner = false ∧
    (run b p env (s, editField f v st) es).2.mintResponse = none ∧
    (render p (run b p env (s, editField f v st) es).1
      (run b p env (s, editField f v st) es).2).banner = false := by
  have h0 : (editField f v st).mintResponse = none := by
    simp [editField, setData, dataEffect]
  have h1 := mintResponse_none_of_no_mint b p env es (s, editField f v st) hes h0
  refine ⟨h0, ?_, h1, ?_⟩
  · simp [render, h0]
  · simp [render, h1]

/-- C8, at a concrete run: a form showing a failed response is edited, then
toggled, cancelled and hit by a change of the wallet's chain. -/
theorem edit_clears_mintResponse_witness :
    (∀ e ∈ [Event.toggle, Event.cancel, Event.storeChanged movedStore], e.isMint = false) ∧
    (State.mk false (some userData) (some false)
      (some ⟨[("status", .str "failed")]⟩)).mintResponse ≠ none ∧
    (run Build.lowered noProps ⟨none⟩
      (demoStore, editField ⟨"Recipient Address", "address", "text", ""⟩
        (.str "0xNEW") (State.mk false (some userData) (some false)
          (some ⟨[("status", .str "failed")]⟩)))
      [Event.toggle, Event.cancel, Event.storeChanged movedStore]).2.mintResponse = none := by
  refine ⟨by simp [Event.isMint], by simp, ?_⟩
  exact (edit_clears_mintResponse Build.lowered noProps ⟨none⟩ demoStore _ _ _ _
    (by simp [Event.isMint])).2.2.1

/-- C6 (amended), at a concrete input: the user's form holds `polygon` and
`0xUSER`, the wallet is on chain 1; the address is kept, the chain becomes
`ethereum`. -/
theorem initEffect_address_kept_chain_follows_wallet_witness :
    (demoStore.wallet_data.chain_id.truthy && demoStore.wallet_data.address.truthy) = true ∧
    optGet (initEffect demoStore (State.mk false (some userData) none none)).data "address"
      = userData.get "address" ∧
    optGet (initEffect demoStore (State.mk false (some userData) none none)).data "chain"
      = chainIdField (findChainByChainId demoStore.chains_data demoStore.wallet_data.chain_id) :=
  ⟨by decide,
   ((initEffect_address_kept_chain_follows_wallet demoStore
      (State.mk false (some userData) none none)).1 (by decide)).1 userData rfl,
   ((initEffect_address_kept_chain_follows_wallet demoStore
      (State.mk false (some userData) none none)).1 (by decide)).2.2.1 (by decide)⟩

/-! ## Which controls are rendered -/

/-- C9: for Form Data whose two fields hold text or nothing, `hasAllFields`
is true exactly when the chain field and the address field are both non-empty
strings; and whenever it is false, none of Cancel, the chain-switch control
and the mint button is rendered. -/
theorem hasAllFields_iff_both_nonempty (p : Props) (s : Store) (st : State)
    (hc : optGet st.data "chain" = .undefined ∨ optGet st.data "chain" = .null ∨
      ∃ t, optGet st.data "chain" = .str t)
    (ha : optGet st.data "address" = .undefined ∨ optGet st.data "address" = .null ∨
      ∃ t, optGet st.data "address" = .str t) :
    (hasAllFields st.data = true ↔
      (∃ c, optGet st.data "chain" = .str c ∧ c ≠ "") ∧
      (∃ a, optGet st.data "address" = .str a ∧ a ≠ "")) ∧
    (hasAllFields st.data = false →
      (render p s st).cancelButton = false ∧ (render p s st).switchControl = false ∧
      (render p s st).mintButton = false) := by
  constructor
  · rw [hasAllFields_eq, Bool.and_eq_true, truthy_str_iff _ hc, truthy_str_iff _ ha]
  · intro h
    simp [render, h]

/-- C9, at concrete inputs: with only the chain filled the predicate is false
and no action control is rendered, although the form is expanded, the wallet
has a signer and the asset is known. -/
theorem hasAllFields_iff_both_nonempty_witness :
    hasAllFields (State.mk false (some ⟨[("chain", .str "ethereum")]⟩) none none).data = false ∧
    (render noProps demoStore
      (State.mk false (some ⟨[("chain", .str "ethereum")]⟩) none none)).cancelButton = false ∧
    (render noProps demoStore
      (State.mk false (some ⟨[("chain", .str "ethereum")]⟩) none none)).switchControl = false ∧
    (render noProps demoStore
      (State.mk false (some ⟨[("chain", .str "ethereum")]⟩) none none)).mintButton = false :=
  ⟨by decide,
   (hasAllFields_iff_both_nonempty noProps demoStore
      (State.mk false (some ⟨[("chain", .str "ethereum")]⟩) none none)
      (Or.inr (Or.inr ⟨"ethereum", by decide⟩)) (Or.inl (by decide))).2 (by decide)⟩

theorem render_nothing_without_asset (p : Props) (s : Store) (st : State)
    (h : findAsset s.assets_data (token_id p) = none) :
    render p s st = ⟨false, false, false, false, false, false⟩ := by
  simp [render, h]

/-- C3: for every expanded form on screen, with a signer and with both fields
filled: when the chain id of the catalog chain selected in the form equals the
wallet's current chain id, the mint button is rendered and the chain-switch
control is not; when the form's chain resolves to a different chain id, or to
no known chain while the wallet has a chain id, the chain-switch control is
rendered and the mint button is not.  Exactly one of the two controls is
rendered in every such state. -/
theorem action_control_by_chain_match (p : Props) (s : Store) (st : State)
    (hform : (render p s st).form = true) (hsig : s.wallet_data.signer.truthy = true)
    (hall : hasAllFields st.data = true) :
    (chainChainId (findChainById s.chains_data (optGet st.data "chain")) = s.wallet_data.chain_id →
      (render p s st).mintButton = true ∧ (render p s st).switchControl = false) ∧
    (chainChainId (findChainById s.chains_data (optGet st.data "chain")) ≠ s.wallet_data.chain_id →
      (render p s st).switchControl = true ∧ (render p s st).mintButton = false) ∧
    (findChainById s.chains_data (optGet st.data "chain") = none →
      s.wallet_data.chain_id ≠ .undefined →
      (render p s st).switchControl = true ∧ (render p s st).mintButton = false) ∧
    ((render p s st).mintButton ≠ (render p s st).switchControl) := by
  have hf : ((findAsset s.assets_data (token_id p)).isSome && !st.collapse) = true := hform
  rw [Bool.and_eq_true] at hf
  obtain ⟨hasset, hcol⟩ := hf
  have hexp : st.collapse = false := by simpa using hcol
  refine ⟨?_, ?_, ?_, ?_⟩
  · intro h
    simp [render, hexp, hsig, hall, hasset, h]
  · intro h
    simp [render, hexp, hsig, hall, hasset, h]
  · intro hnone hw
    have h : chainChainId (findChainById s.chains_data (optGet st.data "chain"))
        ≠ s.wallet_data.chain_id := by
      rw [hnone]
      intro hh
      exact hw hh.symm
    simp [render, hexp, hsig, hall, hasset, h]
  · by_cases h : chainChainId (findChainById s.chains_data (optGet st.data "chain"))
        = s.wallet_data.chain_id
    · simp [render, hexp, hsig, hall, hasset, h]
    · simp [render, hexp, hsig, hall, hasset, h]

/-- C3, at concrete inputs: the wallet is on chain 1; a form that selects
`polygon` shows only the chain-switch control, a form that selects `ethereum`
shows only the mint button. -/
theorem action_control_by_chain_match_witness :
    ((render noProps demoStore (State.mk false (some userData) none none)).form = true ∧
    demoStore.wallet_data.signer.truthy = true ∧
    hasAllFields (State.mk false (some userData) none none).data = true ∧
    chainChainId (findChainById demoStore.chains_data
      (optGet (State.mk false (some userData) none none).data "chain"))
        ≠ demoStore.wallet_data.chain_id ∧
    (render noProps demoStore (State.mk false (some userData) none none)).switchControl = true ∧
    (render noProps demoStore (State.mk false (some userData) none none)).mintButton = false) ∧
    ((render noProps demoStore readyState).form = true ∧
    hasAllFields readyState.data = true ∧
    chainChainId (findChainById demoStore.chains_data (optGet readyState.data "chain"))
        = demoStore.wallet_data.chain_id ∧
    (render noProps demoStore readyState).mintButton = true ∧
    (render noProps demoStore readyState).switchControl = false) :=
  ⟨⟨by decide, by decide, by decide, by decide,
    (action_control_by_chain_match noProps demoStore (State.mk false (some userData) none none)
      (by decide) (by decide) (by decide)).2.1 (by decide)⟩,
   ⟨by decide, by decide, by decide,
    (action_control_by_chain_match noProps demoStore readyState
      (by decide) (by decide) (by decide)).1 (by decide)⟩⟩

/-! ## The mint routine -/

theorem mintTry_lexical (x : External) (p : Props) (env : ProcessEnv) (s : Store) (st : State) :
    mintTry .lexical x p env s st = ([], .error (ReferenceError "contract_data")) := by
  rfl

theorem mintTry_lowered (x : External) (p : Props) (env : ProcessEnv) (s : Store) (st : State) :
    mintTry .lowered x p env s st
      = mintSubmit x (faucet_amount p env) st.data
          (findContract (findAsset s.assets_data (token_id p)) s.wallet_data.chain_id) := by
  rfl

theorem getProp_append_of_absent (k : String) (l1 l2 : List (String × JSVal))
    (h : ∀ kv ∈ l2, kv.1 ≠ k) : getProp k (l1 ++ l2) = getProp k l1 := by
  unfold getProp
  rw [List.foldl_append]
  generalize List.foldl (fun acc kv => if kv.1 = k then kv.2 else acc) JSVal.undefined l1 = a
  induction l2 generalizing a with
  | nil => rfl
  | cons kv l2 ih =>
    have h1 : kv.1 ≠ k := h kv (List.mem_cons_self _ _)
    simp only [List.foldl_cons, h1, if_false]
    exact ih (fun kv0 h0 => h kv0 (List.mem_cons_of_mem _ h0)) a

theorem getProp_append_of_undefined (k : String) (l1 l2 : List (String × JSVal))
    (h : getProp k l1 = .undefined) : getProp k (l1 ++ l2) = getProp k l2 := by
  unfold getProp at h ⊢
  rw [List.foldl_append, h]

/-- The `catch` branch on its own (lines 88-91): for every caught error the
object has the two properties `status` and `message` only, with the message
taken from `data.message` when that is a non-empty string and from `message`
when `data.message` is missing or empty. -/
theorem catchResponse_message (e : JSError) :
    ∃ msg, catchResponse e = ⟨[("status", .str "failed"), ("message", msg)]⟩ ∧
      (∀ m, e.data_message = .str m → m ≠ "" → msg = .str m) ∧
      (e.data_message = .undefined ∨ e.data_message = .null ∨ e.data_message = .str "" →
        msg = e.message) := by
  refine ⟨jsOr e.data_message e.message, rfl, ?_, ?_⟩
  · intro m hm hne
    simp [jsOr, hm, JSVal.truthy, hne]
  · intro hd
    rcases hd with hd | hd | hd <;> simp [jsOr, hd, JSVal.truthy]

/-- Lines 75-86, by cases on the collaborators: either the constructor or the
unit conversion throws and no call is issued, or exactly one call is issued,
to the form's address, for the converted amount, and the outcome is decided
by the contract call and the wait. -/
theorem mintSubmit_cases (x : External) (amount : JSNumber) (data : Option JSObj)
    (cd : Option Contract) :
    (mintSubmit x amount data cd).1 = [] ∨
    ∃ units, x.parseUnits amount (jsOr (decimals cd) (.num 18)) = .ok units ∧
      (mintSubmit x amount data cd).1 = [⟨contract_address cd, optGet data "address", units⟩] ∧
      (∀ e, x.mint ⟨contract_address cd, optGet data "address", units⟩ = .error e →
        (mintSubmit x amount data cd).2 = .error e) ∧
      (∀ response e, x.mint ⟨contract_address cd, optGet data "address", units⟩ = .ok response →
        x.waitForTransaction (response.get "hash") = .error e →
        (mintSubmit x amount data cd).2 = .error e) ∧
      (∀ response receipt,
        x.mint ⟨contract_address cd, optGet data "address", units⟩ = .ok response →
        x.waitForTransaction (response.get "hash") = .ok receipt →
        (mintSubmit x amount data cd).2 = .ok
          ⟨[("status", .str (if !(optGet receipt "status").truthy then "failed"
                else "success")),
            ("message", .str (if !(optGet receipt "status").truthy then "Failed to faucet"
                else "Faucet Successful"))] ++ response.props⟩) := by
  cases h1 : x.newContract (contract_address cd) with
  | error e => left; simp [mintSubmit, h1]
  | ok u =>
    cases h2 : x.parseUnits amount (jsOr (decimals cd) (.num 18)) with
    | error e => left; simp [mintSubmit, h1, h2]
    | ok units =>
      right
      refine ⟨units, rfl, ?_, ?_, ?_, ?_⟩
      · cases h3 : x.mint ⟨contract_address cd, optGet data "address", units⟩ with
        | error e => simp [mintSubmit, h1, h2, h3]
        | ok response =>
          cases h4 : x.waitForTransaction (response.get "hash") with
          | error e => simp [mintSubmit, h1, h2, h3, h4]
          | ok receipt => simp [mintSubmit, h1, h2, h3, h4]
      · intro e h3
        simp [mintSubmit, h1, h2, h3]
      · intro response e h3 h4
        simp [mintSubmit, h1, h2, h3, h4]
      · intro response receipt h3 h4
        simp [mintSubmit, h1, h2, h3, h4, spread]

/-- The default of line 80 on its own: `decimals || 18` is 18 for a missing
`decimals` and also for a `decimals` of 0. -/
theorem decimals_or_18 :
    jsOr .undefined (.num 18) = .num 18 ∧ jsOr (.num 0) (.num 18) = .num 18 ∧
    jsOr (.num 6) (.num 18) = .num 6 := by
  decide

theorem mint_calls_lexical (x : External) (p : Props) (env : ProcessEnv) (s : Store)
    (st : State) : (mint .lexical x p env s st).2 = [] := by
  rfl

/-- C1: in every run of `mint` that issues the contract call and in which
that call and the wait both return, for a transaction response that carries
no `status` or `message` property of its own (as ethers' responses do), the
recorded Mint Response is decided by the receipt's status: a falsy status or
an absent receipt gives status `failed` and message `Failed to faucet`;
otherwise the status is `success`, the message `Faucet Successful` and the
hash is the hash of the transaction response. -/
theorem mint_response_by_receipt_status (b : Build) (x : External) (p : Props)
    (env : ProcessEnv) (s : Store) (st : State) (call : MintCall) (response : JSObj)
    (receipt : Option JSObj)
    (hcall : (mint b x p env s st).2 = [call])
    (hresp : x.mint call = .ok response)
    (hwait : x.waitForTransaction (response.get "hash") = .ok receipt)
    (hs : ∀ kv ∈ response.props, kv.1 ≠ "status" ∧ kv.1 ≠ "message") :
    ∃ obj, (mint b x p env s st).1.mintResponse = some obj ∧
      ((optGet receipt "status").truthy = false →
        obj.get "status" = .str "failed" ∧ obj.get "message" = .str "Failed to faucet") ∧
      ((optGet receipt "status").truthy = true →
        obj.get "status" = .str "success" ∧ obj.get "message" = .str "Faucet Successful" ∧
        obj.get "hash" = response.get "hash") := by
  cases b with
  | lexical =>
    rw [mint_calls_lexical] at hcall
    exact absurd hcall (by simp)
  | lowered =>
    have hcall2 : (mintSubmit x (faucet_amount p env) st.data
        (findContract (findAsset s.assets_data (token_id p)) s.wallet_data.chain_id)).1
          = [call] := hcall
    rcases mintSubmit_cases x (faucet_amount p env) st.data
        (findContract (findAsset s.assets_data (token_id p)) s.wallet_data.chain_id) with
      h0 | ⟨units, _, hc, _, _, hok⟩
    · rw [h0] at hcall2
      exact absurd hcall2 (by simp)
    · rw [hc] at hcall2
      have hcl : (⟨contract_address
          (findContract (findAsset s.assets_data (token_id p)) s.wallet_data.chain_id),
          optGet st.data "address", units⟩ : MintCall) = call := by
        simpa using hcall2
      have hfin := hok response receipt (by rw [hcl]; exact hresp) hwait
      refine ⟨⟨[("status", .str (if !(optGet receipt "status").truthy then "failed"
            else "success")),
          ("message", .str (if !(optGet receipt "status").truthy then "Failed to faucet"
            else "Faucet Successful"))] ++ response.props⟩, ?_, ?_, ?_⟩
      · simp only [mint, mintTry_lowered, hfin]
      · intro ht
        simp only [JSObj.get]
        rw [getProp_append_of_absent _ _ _ (fun kv h => (hs kv h).1),
          getProp_append_of_absent _ _ _ (fun kv h => (hs kv h).2)]
        simp [ht, getProp]
      · intro ht
        simp only [JSObj.get]
        rw [getProp_append_of_absent _ _ _ (fun kv h => (hs kv h).1),
          getProp_append_of_absent _ _ _ (fun kv h => (hs kv h).2)]
        refine ⟨by simp [ht, getProp], by simp [ht, getProp], ?_⟩
        exact getProp_append_of_undefined _ _ _ (by simp [getProp])

/-- C1, at concrete runs (bundle with `const` lowered to `var`): the call to
`0xCATALOG` returns `{hash: 0xHASH}`; with a receipt of status 1 the response
is `success` with that hash, with a receipt of status 0 it is `failed`. -/
theorem mint_response_by_receipt_status_witness :
    ((mint .lowered acceptingChain noProps ⟨none⟩ demoStore readyState).2
        = [⟨.str "0xCATALOG", .str "0xUSER", 1000000000⟩] ∧
    ∃ obj, (mint .lowered acceptingChain noProps ⟨none⟩ demoStore readyState).1.mintResponse
        = some obj ∧
      obj.get "status" = .str "success" ∧ obj.get "message" = .str "Faucet Successful" ∧
      obj.get "hash" = .str "0xHASH") ∧
    ∃ obj, (mint .lowered
        { acceptingChain with waitForTransaction := fun _ => .ok (some ⟨[("status", .num 0)]⟩) }
        noProps ⟨none⟩ demoStore readyState).1.mintResponse = some obj ∧
      obj.get "status" = .str "failed" ∧ obj.get "message" = .str "Failed to faucet" := by
  constructor
  · refine ⟨by decide, ?_⟩
    obtain ⟨obj, h1, _, h3⟩ := mint_response_by_receipt_status .lowered acceptingChain noProps
      ⟨none⟩ demoStore readyState ⟨.str "0xCATALOG", .str "0xUSER", 1000000000⟩
      ⟨[("hash", .str "0xHASH")]⟩ (some ⟨[("status", .num 1)]⟩)
      (by decide) rfl rfl (by decide)
    exact ⟨obj, h1, (h3 (by decide)).1, (h3 (by decide)).2.1, (h3 (by decide)).2.2⟩
  · obtain ⟨obj, h1, h2, _⟩ := mint_response_by_receipt_status .lowered
      { acceptingChain with waitForTransaction := fun _ => .ok (some ⟨[("status", .num 0)]⟩) }
      noProps ⟨none⟩ demoStore readyState ⟨.str "0xCATALOG", .str "0xUSER", 1000000000⟩
      ⟨[("hash", .str "0xHASH")]⟩ (some ⟨[("status", .num 0)]⟩)
      (by decide) rfl rfl (by decide)
    exact ⟨obj, h1, (h2 (by decide)).1, (h2 (by decide)).2⟩

/-- C2: whenever the `try` block of `mint` throws an error, be it the read
on line 74, the contract constructor, the unit conversion, the contract call
or the wait, `mint` records a response with exactly the two properties
`status` and `message`; the status is `failed`, and the message is the
error's `data.message` when that is a non-empty string and the error's
`message` when `data.message` is missing or empty. -/
theorem mint_records_thrown_error (b : Build) (x : External) (p : Props) (env : ProcessEnv)
    (s : Store) (st : State) (e : JSError) (h : (mintTry b x p env s st).2 = .error e) :
    ∃ msg, (mint b x p env s st).1.mintResponse
        = some ⟨[("status", .str "failed"), ("message", msg)]⟩ ∧
      (∀ m, e.data_message = .str m → m ≠ "" → msg = .str m) ∧
      (e.data_message = .undefined ∨ e.data_message = .null ∨ e.data_message = .str "" →
        msg = e.message) := by
  obtain ⟨msg, hm, h1, h2⟩ := catchResponse_message e
  refine ⟨msg, ?_, h1, h2⟩
  simp only [mint, h, hm]

/-- C2, at concrete runs: a contract call that throws an error with the
structured message `execution reverted` (bundle with `const` lowered) is
recorded with that message; the ReferenceError of line 74 (bundle keeping
`const`), which has no `data`, is recorded with its own message. -/
theorem mint_records_thrown_error_witness :
    ((mintTry .lowered revertingChain noProps ⟨none⟩ demoStore readyState).2
        = .error revertError ∧
      (mint .lowered revertingChain noProps ⟨none⟩ demoStore readyState).1.mintResponse
        = some ⟨[("status", .str "failed"), ("message", .str "execution reverted")]⟩) ∧
    ((mintTry .lexical acceptingChain noProps ⟨none⟩ demoStore readyState).2
        = .error (ReferenceError "contract_data") ∧
      (mint .lexical acceptingChain noProps ⟨none⟩ demoStore readyState).1.mintResponse
        = some ⟨[("status", .str "failed"),
            ("message", .str "Cannot access \x27contract_data\x27 before initialization")]⟩) := by
  constructor
  · refine ⟨rfl, ?_⟩
    obtain ⟨msg, hm, h1, _⟩ := mint_records_thrown_error .lowered revertingChain noProps ⟨none⟩
      demoStore readyState revertError rfl
    rw [hm, h1 "execution reverted" rfl (by decide)]
  · refine ⟨rfl, ?_⟩
    obtain ⟨msg, hm, _, h2⟩ := mint_records_thrown_error .lexical acceptingChain noProps ⟨none⟩
      demoStore readyState (ReferenceError "contract_data") rfl
    rw [hm, h2 (Or.inl rfl)]
    rfl

/-- C4 (code defect): the caller passes `contract_data` with address
`0xCALLER` and 6 decimals; `mint` never reads it.  In a bundle that keeps
`const`, the initializer of line 74 reads the block's own uninitialised
binding and throws; in a bundle that lowers it to `var`, that read gives
`undefined` and the call goes to the catalog's contract `0xCATALOG`.  For
every bundle, collaborator, store and state the outcome of `mint` is the same
whatever the value of the prop. -/
theorem mint_never_reads_caller_contract_data :
    (mintTry .lexical acceptingChain
        ⟨.undefined, none, some ⟨.num 1, .str "0xCALLER", .num 6, .str "TEST"⟩⟩
        ⟨none⟩ demoStore readyState)
      = ([], .error (ReferenceError "contract_data")) ∧
    (mintTry .lowered acceptingChain
        ⟨.undefined, none, some ⟨.num 1, .str "0xCALLER", .num 6, .str "TEST"⟩⟩
        ⟨none⟩ demoStore readyState).1
      = [⟨.str "0xCATALOG", .str "0xUSER", 1000000000⟩] ∧
    ∀ (b : Build) (x : External) (p : Props) (env : ProcessEnv) (s : Store) (st : State)
      (cd : Option Contract),
      mint b x { p with contract_data := cd } env s st = mint b x p env s st := by
  exact ⟨rfl, by decide, fun _ _ _ _ _ _ _ => rfl⟩

/-- C5 (as stated, refuted): the catalog gives the token 0 decimals, the
amount is the default 1000 and the unit conversion scales by ten to the
decimals; the one call that is issued (bundle with `const` lowered) asks for
1000 * 10^18 units, the amount for 18 decimals, although the metadata has a
decimals value. -/
theorem zero_decimals_minted_with_18 :
    decimals (findContract (findAsset zeroDecimalsAssets (token_id noProps)) demoWallet.chain_id)
      = .num 0 ∧
    (faucet_amount noProps ⟨none⟩).toInt? = some 1000 ∧
    (mint .lowered acceptingChain noProps ⟨none⟩ ⟨demoChains, zeroDecimalsAssets, demoWallet⟩
        readyState).2
      = [⟨.str "0xCATALOG", .str "0xUSER", 1000 * 10 ^ 18⟩] := by
  decide

/-- C5 (amended): in every run of `mint` that reaches the contract call,
exactly one mint call is issued, on the contract address of the catalog
entry of the token for the wallet's chain, its recipient argument is the
form's address field, and its amount argument is what the unit conversion
returns for `faucet_amount` and `d` decimals, where `d` is the decimals of
that catalog entry when it is a non-zero number, and 18 when the entry has no
decimals value and also when its decimals value is 0. -/
theorem mint_call_arguments (b : Build) (x : External) (p : Props) (env : ProcessEnv)
    (s : Store) (st : State) (hreach : (mint b x p env s st).2 ≠ []) :
    ∃ d units,
      (mint b x p env s st).2
        = [⟨contract_address
              (findContract (findAsset s.assets_data (token_id p)) s.wallet_data.chain_id),
            optGet st.data "address", units⟩] ∧
      x.parseUnits (faucet_amount p env) d = .ok units ∧
      (∀ k : Int, decimals
          (findContract (findAsset s.assets_data (token_id p)) s.wallet_data.chain_id) = .num k →
        k ≠ 0 → d = .num k) ∧
      (decimals (findContract (findAsset s.assets_data (token_id p)) s.wallet_data.chain_id)
          = .undefined ∨
        decimals (findContract (findAsset s.assets_data (token_id p)) s.wallet_data.chain_id)
          = .null ∨
        decimals (findContract (findAsset s.assets_data (token_id p)) s.wallet_data.chain_id)
          = .num 0 →
        d = .num 18) := by
  cases b with
  | lexical => exact absurd (mint_calls_lexical x p env s st) hreach
  | lowered =>
    have hreach2 : (mintSubmit x (faucet_amount p env) st.data
        (findContract (findAsset s.assets_data (token_id p)) s.wallet_data.chain_id)).1
          ≠ [] := hreach
    rcases mintSubmit_cases x (faucet_amount p env) st.data
        (findContract (findAsset s.assets_data (token_id p)) s.wallet_data.chain_id) with
      h0 | ⟨units, hpu, hc, _, _, _⟩
    · exact absurd h0 hreach2
    · refine ⟨_, units, hc, hpu, ?_, ?_⟩
      · intro k hk hne
        simp [jsOr, hk, JSVal.truthy, hne]
      · intro hd
        rcases hd with hd | hd | hd <;> simp [jsOr, hd, JSVal.truthy]

/-- C5 (amended), at concrete runs (bundle with `const` lowered): with 6
decimals in the catalog the single call asks for 1000 * 10^6 units. -/
theorem mint_call_arguments_witness :
    (mint .lowered acceptingChain noProps ⟨none⟩ demoStore readyState).2 ≠ [] ∧
    ∃ d units,
      (mint .lowered acceptingChain noProps ⟨none⟩ demoStore readyState).2
        = [⟨.str "0xCATALOG", .str "0xUSER", units⟩] ∧
      acceptingChain.parseUnits (faucet_amount noProps ⟨none⟩) d = .ok units ∧
      d = .num 6 := by
  refine ⟨by decide, ?_⟩
  obtain ⟨d, units, h1, h2, h3, _⟩ := mint_call_arguments .lowered acceptingChain noProps
    ⟨none⟩ demoStore readyState (by decide)
  exact ⟨d, units, h1, h2, h3 6 (by decide) (by decide)⟩

/-! ## `Number(...)` on decimal integer strings -/

theorem digitChar_isDec (k : Nat) (hk : k < 10) :
    isDec (Nat.digitChar k) ∧ (Nat.digitChar k).toNat - 48 = k := by
  unfold isDec
  interval_cases k <;> decide

theorem digitsVal_append_single (ds : List Nat) (d : Nat) :
    digitsVal 10 (ds ++ [d]) = 10 * digitsVal 10 ds + d := by
  simp [digitsVal, List.foldl_append]

theorem toDigitsCore_spec (fuel : Nat) : ∀ (n : Nat) (acc : List Char), n < fuel →
    ∃ pre, Nat.toDigitsCore 10 fuel n acc = pre ++ acc ∧ pre ≠ [] ∧
      (∀ c ∈ pre, isDec c) ∧ charsVal pre = n := by
  induction fuel with
  | zero => intro n acc h; omega
  | succ fuel ih =>
    intro n acc h
    have hd := digitChar_isDec (n % 10) (Nat.mod_lt _ (by decide))
    simp only [Nat.toDigitsCore]
    by_cases h0 : n / 10 = 0
    · refine ⟨[Nat.digitChar (n % 10)], by simp [h0], by simp, ?_, ?_⟩
      · intro c hc
        simp at hc
        rw [hc]; exact hd.1
      · simp [charsVal, digitsVal, hd.2]
        omega
    · have hlt : n / 10 < fuel := by omega
      obtain ⟨pre, h1, _, h3, h4⟩ := ih (n / 10) (Nat.digitChar (n % 10) :: acc) hlt
      refine ⟨pre ++ [Nat.digitChar (n % 10)], by simp [h0, h1], by simp, ?_, ?_⟩
      · intro c hc
        rcases List.mem_append.1 hc with hc | hc
        · exact h3 c hc
        · simp at hc
          rw [hc]; exact hd.1
      · unfold charsVal at h4 ⊢
        rw [List.map_append, List.map_singleton, digitsVal_append_single, h4, hd.2]
        omega

theorem toDigits_spec (n : Nat) :
    Nat.toDigits 10 n ≠ [] ∧ (∀ c ∈ Nat.toDigits 10 n, isDec c) ∧
      charsVal (Nat.toDigits 10 n) = n := by
  obtain ⟨pre, h1, h2, h3, h4⟩ := toDigitsCore_spec (n + 1) n [] (Nat.lt_succ_self n)
  simp only [List.append_nil] at h1
  unfold Nat.toDigits
  rw [h1]
  exact ⟨h2, h3, h4⟩

theorem radixDigit_dec (c : Char) (h : isDec c) : radixDigit 10 c = some (c.toNat - 48) := by
  unfold isDec at h
  have : c.toNat - 48 < 10 := by omega
  simp [radixDigit, h.1, h.2, this]

theorem takeDigits_dec (cs : List Char) (h : ∀ c ∈ cs, isDec c) :
    takeDigits 10 cs = (cs.map (fun c => c.toNat - 48), []) := by
  induction cs with
  | nil => rfl
  | cons c cs ih =>
    have ih1 := ih (fun c0 h0 => h c0 (List.mem_cons_of_mem _ h0))
    simp [takeDigits, radixDigit_dec c (h c (List.mem_cons_self _ _)), ih1]

theorem not_white_of_dec (c : Char) (h : isDec c) : isStrWhiteSpaceChar c = false := by
  unfold isDec at h
  simp only [isStrWhiteSpaceChar, Bool.or_eq_false_iff, Bool.and_eq_false_iff, beq_eq_false_iff_ne,
    decide_eq_false_iff_not]
  omega

theorem dropWhile_of_head (p : Char → Bool) (cs : List Char) (h : ∀ c ∈ cs, p c = false) :
    cs.dropWhile p = cs := by
  cases cs with
  | nil => rfl
  | cons c cs => simp [List.dropWhile, h c (List.mem_cons_self _ _)]

theorem trimWhite_dec (cs : List Char) (h : ∀ c ∈ cs, isDec c) : trimWhite cs = cs := by
  unfold trimWhite
  rw [dropWhile_of_head _ cs (fun c hc => not_white_of_dec c (h c hc)),
    dropWhile_of_head _ cs.reverse (fun c hc => not_white_of_dec c (h c (List.mem_reverse.1 hc))),
    List.reverse_reverse]

theorem parseNonDecimal_dec (cs : List Char) (h : ∀ c ∈ cs, isDec c) :
    parseNonDecimal cs = none := by
  match cs with
  | [] => rfl
  | [_] => rfl
  | z :: q :: rest =>
    have hq := h q (by simp)
    unfold isDec at hq
    have h1 : ¬ (q.toNat = 120 ∨ q.toNat = 88) := by omega
    have h2 : ¬ (q.toNat = 111 ∨ q.toNat = 79) := by omega
    have h3 : ¬ (q.toNat = 98 ∨ q.toNat = 66) := by omega
    simp [parseNonDecimal, h1, h2, h3]

theorem takeSign_dec (cs : List Char) (h : ∀ c ∈ cs, isDec c) : takeSign cs = (false, cs) := by
  cases cs with
  | nil => rfl
  | cons c cs =>
    have hc := h c (List.mem_cons_self _ _)
    unfold isDec at hc
    have h1 : ¬ c.toNat = 45 := by omega
    have h2 : ¬ c.toNat = 43 := by omega
    simp [takeSign, h1, h2]

theorem roundHalfEven_ge (a b : Nat) : a / b ≤ roundHalfEven a b := by
  unfold roundHalfEven
  split
  · exact Nat.le_refl _
  · split
    · exact Nat.le_succ _
    · split
      · exact Nat.le_refl _
      · exact Nat.le_succ _

theorem roundHalfEven_one (a : Nat) : roundHalfEven a 1 = a := by
  simp [roundHalfEven, Nat.mod_one]

theorem log2Fuel_eq_log2 (fuel : Nat) : ∀ n, n ≤ fuel → log2Fuel fuel n = Nat.log2 n := by
  induction fuel with
  | zero =>
    intro n h
    have h0 : n = 0 := by omega
    subst h0
    simp [log2Fuel, Nat.log2]
  | succ fuel ih =>
    intro n h
    rw [Nat.log2]
    by_cases h2 : n < 2
    · have h3 : ¬ n ≥ 2 := by omega
      simp [log2Fuel, h2, h3]
    · have h3 : n ≥ 2 := by omega
      have h4 : n / 2 ≤ fuel := by omega
      simp [log2Fuel, h2, h3, ih (n / 2) h4]

theorem floorLog2_nat (n : Nat) (hn : n ≠ 0) : floorLog2 n 1 = (Nat.log2 n : Int) := by
  have h1 : log2Fuel 1 1 = 0 := rfl
  have h2 : 2 ^ Nat.log2 n ≤ n := Nat.log2_self_le hn
  simp [floorLog2, h1, log2Fuel_eq_log2 n n (Nat.le_refl n), h2]

theorem truthy_of_mant_ne_zero (c : Prop) [Decidable c] (neg : Bool) (m : Nat) (e : Int)
    (hm : m ≠ 0) : (if c then JSNumber.inf neg else JSNumber.fin neg m e).truthy = true := by
  split <;> simp [JSNumber.truthy, hm]

theorem carry_ne_zero (m : Nat) (hm : 0 < m) : (if m = 2 ^ 53 then 2 ^ 52 else m) ≠ 0 := by
  split
  · decide
  · omega

theorem roundToDouble_truthy (neg : Bool) (n : Nat) (hn : 0 < n) :
    (roundToDouble neg n 1).truthy = true := by
  have hn0 : n ≠ 0 := by omega
  have hlog : 2 ^ Nat.log2 n ≤ n := Nat.log2_self_le hn0
  have hmax : max ((Nat.log2 n : Int) - 52) (-1074) = (Nat.log2 n : Int) - 52 := by
    apply max_eq_left
    omega
  simp only [roundToDouble, hn0, if_false, floorLog2_nat n hn0, hmax]
  apply truthy_of_mant_ne_zero
  apply carry_ne_zero
  split
  · refine Nat.lt_of_lt_of_le ?_ (roundHalfEven_ge _ _)
    apply Nat.div_pos
    · rw [Nat.one_mul]
      refine Nat.le_trans (Nat.pow_le_pow_right (by decide) ?_) hlog
      omega
    · rw [Nat.one_mul]
      exact Nat.two_pow_pos _
  · rw [roundHalfEven_one]
    exact Nat.mul_pos hn (Nat.two_pow_pos _)

theorem ofNat_exact (n : Nat) (h0 : 0 < n) (h : n < 2 ^ 53) :
    JSNumber.ofNat n = .fin false (n * 2 ^ (52 - Nat.log2 n)) ((Nat.log2 n : Int) - 52) := by
  have hn0 : n ≠ 0 := by omega
  have hlog : Nat.log2 n < 53 := (Nat.log2_lt hn0).2 h
  have hup : n < 2 ^ (Nat.log2 n + 1) := Nat.lt_log2_self
  have hmax : max ((Nat.log2 n : Int) - 52) (-1074) = (Nat.log2 n : Int) - 52 := by
    apply max_eq_left
    omega
  have hto : (-((Nat.log2 n : Int) - 52)).toNat = 52 - Nat.log2 n := by omega
  have hm : n * 2 ^ (52 - Nat.log2 n) < 2 ^ 53 := by
    have h3 : n * 2 ^ (52 - Nat.log2 n) < 2 ^ (Nat.log2 n + 1) * 2 ^ (52 - Nat.log2 n) :=
      Nat.mul_lt_mul_of_pos_right hup (Nat.two_pow_pos _)
    rw [← Nat.pow_add] at h3
    have h4 : Nat.log2 n + 1 + (52 - Nat.log2 n) = 53 := by omega
    rwa [h4] at h3
  have hm2 : n * 2 ^ (52 - Nat.log2 n) ≠ 2 ^ 53 := Nat.ne_of_lt hm
  have hnot : ¬ (971 : Int) < (Nat.log2 n : Int) - 52 := by omega
  simp only [JSNumber.ofNat, roundToDouble, hn0, if_false, floorLog2_nat n hn0, hmax]
  by_cases hge : 0 ≤ (Nat.log2 n : Int) - 52
  · have h52 : Nat.log2 n = 52 := by omega
    have hn2 : n ≠ 9007199254740992 := by
      have h5 : n < 9007199254740992 := h
      omega
    rw [h52]
    simp [roundHalfEven_one, hn2]
  · simp only [hge, if_false, hto, roundHalfEven_one, hm2, hnot]

theorem ofNat_toInt (n : Nat) (h0 : 0 < n) (h : n < 2 ^ 53) :
    (JSNumber.ofNat n).toInt? = some (n : Int) := by
  have hn0 : n ≠ 0 := by omega
  have hlog : Nat.log2 n < 53 := (Nat.log2_lt hn0).2 h
  rw [ofNat_exact n h0 h]
  by_cases hge : 0 ≤ (Nat.log2 n : Int) - 52
  · have h52 : Nat.log2 n = 52 := by omega
    simp [JSNumber.toInt?, h52]
  · have hto : (-((Nat.log2 n : Int) - 52)).toNat = 52 - Nat.log2 n := by omega
    have hpos : 0 < 2 ^ (52 - Nat.log2 n) := Nat.pos_pow_of_pos _ (by decide)
    simp [JSNumber.toInt?, hge, hto, Nat.mul_mod_left, Nat.mul_div_cancel _ hpos]

theorem StringToNumber_dec (cs : List Char) (hne : cs ≠ []) (h : ∀ c ∈ cs, isDec c) :
    StringToNumber ⟨cs⟩ = roundToDouble false (charsVal cs) 1 := by
  have hinf : cs ≠ "Infinity".toList := by
    intro heq
    have := h (Char.ofNat 73) (by rw [heq]; decide)
    revert this
    unfold isDec
    decide
  have hmap : cs.map (fun c => c.toNat - 48) ≠ [] := by simpa using hne
  simp only [StringToNumber, String.toList, trimWhite_dec cs h, hne, if_false,
    parseNonDecimal_dec cs h, takeSign_dec cs h, hinf, parseUnsignedDecimal,
    takeDigits_dec cs h, hmap, charsVal]
  have hinf2 : ¬ cs = [Char.ofNat 73, Char.ofNat 110, Char.ofNat 102, Char.ofNat 105,
      Char.ofNat 110, Char.ofNat 105, Char.ofNat 116, Char.ofNat 121] := hinf
  simp [decimalToDouble, hinf2]

theorem Number_repr (n : Nat) : Number (some (toString n)) = JSNumber.ofNat n := by
  obtain ⟨h1, h2, h3⟩ := toDigits_spec n
  show StringToNumber ⟨Nat.toDigits 10 n⟩ = _
  rw [StringToNumber_dec _ h1 h2, h3]
  rfl

set_option maxRecDepth 100000 in
set_option exponentiation.threshold 2000 in
/-- The rounding of `Number(...)` at the edges of binary64: `"1e-400"`
underflows to zero, `"1e400"` overflows to `Infinity`, 2^53 + 1 rounds to
2^53, and `"0.1"` is the nearest binary fraction. -/
theorem Number_rounds_to_binary64 :
    Number (some "1e-400") = .fin false 0 (-1074) ∧
    Number (some "1e400") = .inf false ∧
    Number (some "9007199254740993") = .fin false (2 ^ 52) 1 ∧
    Number (some "0.1") = .fin false 7205759403792794 (-56) ∧
    Number (some "500") = .fin false (500 * 2 ^ 44) (-44) ∧
    JSNumber.ofNat 1000 = .fin false (1000 * 2 ^ 43) (-43) := by
  decide

/-- C10 (as stated, refuted): the environment provides the numeric override
`"0"`, which `Number` reads as the number 0, and the default amount is 1000,
not 0. -/
theorem zero_override_falls_back_to_1000 :
    noProps.faucet_amount = none ∧
    Number (some "0") = JSNumber.ofNat 0 ∧
    faucet_amount noProps ⟨some "0"⟩ = JSNumber.ofNat 1000 := by
  decide

/-- C10 (amended): when the caller passes no `faucet_amount`, the amount is
1000 if the environment value is not set; it is the number `Number` reads
from the environment value whenever that number is not zero and not `NaN`
(`"500"` gives 500, and the decimal rendering of every positive integer below
2^53 gives that integer); and it is 1000 as well whenever `Number` reads the
environment value as `NaN` or as zero, as for `"abc"`, `""`, `"0"` and
`"1e-400"`, which underflows to zero. -/
theorem default_faucet_amount_by_override (p : Props) (hp : p.faucet_amount = none) :
    faucet_amount p ⟨none⟩ = JSNumber.ofNat 1000 ∧
    (faucet_amount p ⟨some "500"⟩ = JSNumber.ofNat 500 ∧
      (JSNumber.ofNat 500).toInt? = some 500 ∧ (JSNumber.ofNat 1000).toInt? = some 1000) ∧
    (∀ n : Nat, 0 < n → n < 2 ^ 53 →
      faucet_amount p ⟨some (toString n)⟩ = JSNumber.ofNat n ∧
      (JSNumber.ofNat n).toInt? = some (n : Int)) ∧
    (∀ env : ProcessEnv,
      (Number env.NEXT_PUBLIC_FAUCET_AMOUNT = .nan ∨
        ∃ neg e, Number env.NEXT_PUBLIC_FAUCET_AMOUNT = .fin neg 0 e) →
      faucet_amount p env = JSNumber.ofNat 1000) ∧
    (faucet_amount p ⟨some "abc"⟩ = JSNumber.ofNat 1000 ∧
      faucet_amount p ⟨some ""⟩ = JSNumber.ofNat 1000 ∧
      faucet_amount p ⟨some "0"⟩ = JSNumber.ofNat 1000 ∧
      faucet_amount p ⟨some "1e-400"⟩ = JSNumber.ofNat 1000) ∧
    (∀ env : ProcessEnv, (Number env.NEXT_PUBLIC_FAUCET_AMOUNT).truthy = true →
      faucet_amount p env = Number env.NEXT_PUBLIC_FAUCET_AMOUNT) := by
  have hfall : ∀ env : ProcessEnv,
      (Number env.NEXT_PUBLIC_FAUCET_AMOUNT = .nan ∨
        ∃ neg e, Number env.NEXT_PUBLIC_FAUCET_AMOUNT = .fin neg 0 e) →
      faucet_amount p env = JSNumber.ofNat 1000 := by
    intro env h
    rcases h with h | ⟨neg, e, h⟩ <;>
      simp [faucet_amount, hp, default_faucet_amount, h, JSNumber.truthy]
  have hpos : ∀ n : Nat, 0 < n →
      faucet_amount p ⟨some (toString n)⟩ = JSNumber.ofNat n := by
    intro n hn
    have ht : (JSNumber.ofNat n).truthy = true := roundToDouble_truthy false n hn
    simp [faucet_amount, hp, default_faucet_amount, Number_repr, ht]
  refine ⟨hfall ⟨none⟩ (Or.inl rfl), ⟨hpos 500 (by decide), ofNat_toInt 500 (by decide)
    (by decide), ofNat_toInt 1000 (by decide) (by decide)⟩, ?_, hfall, ⟨?_, ?_, ?_, ?_⟩, ?_⟩
  · intro n hn hlt
    exact ⟨hpos n hn, ofNat_toInt n hn hlt⟩
  · exact hfall ⟨some "abc"⟩ (Or.inl (by decide))
  · exact hfall ⟨some ""⟩ (Or.inr ⟨false, -1074, by decide⟩)
  · exact hfall ⟨some "0"⟩ (Or.inr ⟨false, -1074, by decide⟩)
  · exact hfall ⟨some "1e-400"⟩ (Or.inr ⟨false, -1074, Number_rounds_to_binary64.1⟩)
  · intro env h
    simp [faucet_amount, hp, default_faucet_amount, h]

/-- C10 (amended), at a concrete input: no prop, override `"250"`. -/
theorem default_faucet_amount_by_override_witness :
    noProps.faucet_amount = none ∧ 0 < 250 ∧ 250 < 2 ^ 53 ∧
    faucet_amount noProps ⟨some (toString 250)⟩ = JSNumber.ofNat 250 ∧
    (JSNumber.ofNat 250).toInt? = some 250 :=
  ⟨rfl, by decide, by decide,
   (default_faucet_amount_by_override noProps rfl).2.2.1 250 (by decide) (by decide)⟩

end Faucet
